import Mathlib

/-!
Verification of the VidiSnap processor service (`src/processor/app.py`).

A shallow embedding of the request-processing pipeline of the VidiSnap
processor: filename validation, transient storage of the upload under
`/tmp`, first-frame extraction via an external `ffmpeg` process,
classification of the frame, base64 thumbnail encoding, and the
unconditional cleanup that the orchestrator `process_video` performs in
its `finally` block.

Modelling conventions:
* Python strings are `List Char` (abbreviated `Str`); string literals are
  written `"...".toList`.
* The temp filesystem is an association list from paths to byte lists;
  bytes are `Nat` (with `< 256` hypotheses where byte-ness matters).
* Effects of the outside world (the upload stream, the `ffmpeg` process,
  the torch model, `os.remove` errors) are supplied by an `Env` record of
  oracles, so one run of the orchestrator is a pure function of the
  request and the oracle outcomes.
* A raised Python exception is an `Except` error value: `Exc.http`
  models `fastapi.HTTPException`, `Exc.py` models any other exception.
-/

set_option autoImplicit false

/-- Python `str`, modelled as its list of characters. -/
abbrev Str := List Char

/-- Lowercase a string, as Python `str.lower()` (per-character). -/
def lowerStr (s : Str) : Str := s.map Char.toLower

/-- `true` iff `pre` is an initial segment of `s`. Models Python
`str.startswith`. -/
def startsWithL : Str → Str → Bool
  | [], _ => true
  | _ :: _, [] => false
  | p :: ps, c :: cs => p = c && startsWithL ps cs

/-- Index of the last occurrence of `c` in `l`, if any. Models Python
`str.rfind` (which returns `-1` when absent). -/
def rfindAux (c : Char) : Str → Option Nat
  | [] => none
  | x :: xs =>
    match rfindAux c xs with
    | some i => some (i + 1)
    | none => if x = c then some 0 else none

/-- The extension part of `posixpath.splitext`: the suffix of `p` from its
last dot, provided that dot comes after the last path separator and the
basename does not consist solely of leading dots up to it; otherwise `[]`.
Mirrors CPython `genericpath._splitext` with `sep = '/'`. -/
def splitext_ext (p : Str) : Str :=
  let sepIndex : Int := match rfindAux '/' p with | some i => (i : Int) | none => -1
  let dotIndex : Int := match rfindAux '.' p with | some i => (i : Int) | none => -1
  if sepIndex < dotIndex then
    let base := (p.drop (sepIndex + 1).toNat).take (dotIndex - sepIndex - 1).toNat
    if base.any (fun c => c ≠ '.') then p.drop dotIndex.toNat else []
  else []

/-- The allow-list of `validate_video_file`
(`{'.mp4', '.avi', '.mov', '.mkv', '.wmv', '.flv', '.webm'}`), in source
literal order. Python iterates a `set` in an unspecified order; the model
fixes the literal order for the joined error message. -/
def valid_extensions : List Str :=
  [".mp4".toList, ".avi".toList, ".mov".toList, ".mkv".toList,
   ".wmv".toList, ".flv".toList, ".webm".toList]

/-- `', '.join(...)`, Python's separator join. -/
def joinSep (sep : Str) : List Str → Str
  | [] => []
  | [x] => x
  | x :: y :: rest => x ++ sep ++ joinSep sep (y :: rest)

/-- An `HTTPException`: status code plus `detail` string. -/
structure Err where
  status : Nat
  detail : Str
deriving DecidableEq, Repr

/-- The detail message of the `InvalidFormat` (HTTP 400) rejection. -/
def invalidFormatMsg : Str :=
  "Invalid video file format. Supported formats: ".toList ++
    joinSep ", ".toList valid_extensions

/-- `validate_video_file` (app.py lines 47-56): splits the extension off
the lowercased filename and rejects with HTTP 400 unless it is in the
allow-list. Returns `none` on acceptance, `some` exception on rejection;
it is a pure function of the filename (no side effects). -/
def validate_video_file (filename : Str) : Option Err :=
  let file_ext := splitext_ext (lowerStr filename)
  if file_ext ∈ valid_extensions then none
  else some ⟨400, invalidFormatMsg⟩

/-- The temp filesystem: an association list, path to file bytes. -/
abbrev FS := List (Str × List Nat)

/-- Bytes stored at `p`, if the file exists. -/
def fsRead (fs : FS) (p : Str) : Option (List Nat) :=
  match fs with
  | [] => none
  | (q, bs) :: rest => if q = p then some bs else fsRead rest p

/-- `os.path.exists` for the modelled temp filesystem. -/
def fsExists (fs : FS) (p : Str) : Bool := (fsRead fs p).isSome

/-- `os.remove`: drop every entry stored at `p`. -/
def fsRemove (fs : FS) (p : Str) : FS :=
  fs.filter (fun e => decide (e.1 ≠ p))

/-- `open(p, "wb")` followed by a write: create or truncate the file at
`p`, leaving it holding `bs`. -/
def fsWrite (fs : FS) (p : Str) (bs : List Nat) : FS :=
  (p, bs) :: fsRemove fs p

/-- `os.path.join` for one component, POSIX rules: an absolute second
component discards the first. -/
def pjoin (a b : Str) : Str :=
  if startsWithL ['/'] b then b
  else if a = [] || a.getLast? = some '/' then a ++ b
  else a ++ '/' :: b

/-- The path `save_uploaded_video` writes to:
`os.path.join("/tmp", file.filename)` (app.py line 61). -/
def videoPath (filename : Str) : Str := pjoin "/tmp".toList filename

/-- The path `extract_first_frame` hands to ffmpeg:
`os.path.join("/tmp", f"frame_{filename}.jpg")` (app.py line 73). -/
def framePath (filename : Str) : Str :=
  pjoin "/tmp".toList ("frame_".toList ++ filename ++ ".jpg".toList)

/-- The base64 alphabet of RFC 4648, as used by `base64.b64encode`. -/
def b64chars : Str :=
  "ABCDEFGHIJKLMNOPQRSTUVWXYZabcdefghijklmnopqrstuvwxyz0123456789+/".toList

/-- Character for a 6-bit group. -/
def sextetToChar (n : Nat) : Char := b64chars.getD n 'A'

/-- Inverse table lookup for `sextetToChar`. -/
def charToSextet (c : Char) : Nat := b64chars.findIdx (· = c)

/-- `base64.b64encode` on a byte list: 3-byte groups become 4 alphabet
characters, a trailing group of 1 or 2 bytes is padded with `=`. -/
def b64encode : List Nat → Str
  | [] => []
  | [b1] => [sextetToChar (b1 / 4), sextetToChar (b1 % 4 * 16), '=', '=']
  | [b1, b2] =>
    [sextetToChar (b1 / 4), sextetToChar (b1 % 4 * 16 + b2 / 16),
     sextetToChar (b2 % 16 * 4), '=']
  | b1 :: b2 :: b3 :: rest =>
    sextetToChar (b1 / 4) :: sextetToChar (b1 % 4 * 16 + b2 / 16) ::
    sextetToChar (b2 % 16 * 4 + b3 / 64) :: sextetToChar (b3 % 64) ::
    b64encode rest

/-- `base64.b64decode` on well-formed input: 4-character groups back to
bytes, `=` padding closing the final group. -/
def b64decode : Str → List Nat
  | c1 :: c2 :: c3 :: c4 :: rest =>
    if c3 = '=' then
      [charToSextet c1 * 4 + charToSextet c2 / 16]
    else if c4 = '=' then
      [charToSextet c1 * 4 + charToSextet c2 / 16,
       charToSextet c2 % 16 * 16 + charToSextet c3 / 4]
    else
      (charToSextet c1 * 4 + charToSextet c2 / 16) ::
      (charToSextet c2 % 16 * 16 + charToSextet c3 / 4) ::
      (charToSextet c3 % 4 * 64 + charToSextet c4) ::
      b64decode rest
  | _ => []

theorem charToSextet_sextetToChar {n : Nat} (h : n < 64) :
    charToSextet (sextetToChar n) = n := by
  revert h; revert n; decide

theorem sextetToChar_ne_eq {n : Nat} (h : n < 64) : sextetToChar n ≠ '=' := by
  revert h; revert n; decide

theorem b64_roundtrip : ∀ bs : List Nat, (∀ b ∈ bs, b < 256) →
    b64decode (b64encode bs) = bs
  | [], _ => rfl
  | [b1], h => by
    have h1 : b1 < 256 := h b1 (by simp)
    have e1 := charToSextet_sextetToChar (n := b1 / 4) (by omega)
    have e2 := charToSextet_sextetToChar (n := b1 % 4 * 16) (by omega)
    simp only [b64encode, b64decode, if_true, e1, e2, List.cons.injEq, and_true]
    omega
  | [b1, b2], h => by
    have h1 : b1 < 256 := h b1 (by simp)
    have h2 : b2 < 256 := h b2 (by simp)
    have e1 := charToSextet_sextetToChar (n := b1 / 4) (by omega)
    have e2 := charToSextet_sextetToChar (n := b1 % 4 * 16 + b2 / 16) (by omega)
    have e3 := charToSextet_sextetToChar (n := b2 % 16 * 4) (by omega)
    have n3 := sextetToChar_ne_eq (n := b2 % 16 * 4) (by omega)
    simp only [b64encode, b64decode, if_neg n3, if_true, e1, e2, e3,
      List.cons.injEq, and_true]
    omega
  | b1 :: b2 :: b3 :: rest, h => by
    have h1 : b1 < 256 := h b1 (by simp)
    have h2 : b2 < 256 := h b2 (by simp)
    have h3 : b3 < 256 := h b3 (by simp)
    have ih := b64_roundtrip rest (fun b hb => h b (by simp [hb]))
    have e1 := charToSextet_sextetToChar (n := b1 / 4) (by omega)
    have e2 := charToSextet_sextetToChar (n := b1 % 4 * 16 + b2 / 16) (by omega)
    have e3 := charToSextet_sextetToChar (n := b2 % 16 * 4 + b3 / 64) (by omega)
    have e4 := charToSextet_sextetToChar (n := b3 % 64) (by omega)
    have n3 := sextetToChar_ne_eq (n := b2 % 16 * 4 + b3 / 64) (by omega)
    have n4 := sextetToChar_ne_eq (n := b3 % 64) (by omega)
    match rest with
    | [] =>
      simp only [b64encode, b64decode, if_neg n3, if_neg n4, e1, e2, e3, e4,
        List.cons.injEq, and_true]
      omega
    | r1 :: rest1 =>
      simp only [b64encode, b64decode, if_neg n3, if_neg n4, e1, e2, e3, e4]
      rw [ih]
      simp only [List.cons.injEq, and_true]
      omega

/-- A raised Python exception: `http` is `fastapi.HTTPException`, `py` is
any other exception (e.g. `FileNotFoundError` from `subprocess.run` when
the `ffmpeg` binary is missing). -/
inductive Exc where
  | http (e : Err)
  | py (msg : Str)
deriving DecidableEq, Repr

/-- Outcome of `save_uploaded_video`'s `try` block, decided by the outside
world: the `open` can fail before the file is created, or the
`file.read()` / `buffer.write` can fail after `open` already created (or
truncated) the file, leaving partial content behind. -/
inductive SaveOutcome where
  | ok
  | openFail (msg : Str)
  | writeFail (part : List Nat) (msg : Str)
deriving DecidableEq, Repr

/-- One (label, score) entry of the classification result. -/
abbrev LabelScore := Str × ℚ

/-- Oracle for everything outside the orchestrator's control during one
request: how the save goes, whether `subprocess.run` can launch `ffmpeg`,
ffmpeg's exit status / stderr / written output, what the model returns on
the frame bytes, and which paths `os.remove` fails on. -/
structure Env where
  saveOutcome : SaveOutcome
  ffmpegLaunch : Bool
  ffmpegRet : Nat
  ffmpegErr : Str
  ffmpegWrites : Option (List Nat)
  classifyFn : List Nat → Except Str (List LabelScore)
  stuck : List Str

/-- `cleanup_temp_files` (app.py lines 130-137): for each path, inside a
per-path `try`, check existence and remove. A `None` path makes
`os.path.exists` raise `TypeError`, which the bare `except` swallows with
no removal; an `os.remove` error (path in `stuck`) is likewise swallowed.
The function itself never raises, whatever the arguments. -/
def cleanup_temp_files (stuck : List Str) (paths : List (Option Str)) (fs : FS) : FS :=
  match paths with
  | [] => fs
  | none :: ps => cleanup_temp_files stuck ps fs
  | some p :: ps =>
    if fsExists fs p then
      if p ∈ stuck then cleanup_temp_files stuck ps fs
      else cleanup_temp_files stuck ps (fsRemove fs p)
    else cleanup_temp_files stuck ps fs

/-- `save_uploaded_video` (app.py lines 59-69): write the upload to
`os.path.join("/tmp", filename)`; any exception becomes HTTP 500
`"Failed to save video: ..."`. On a failure after `open`, the created
file (with whatever partial content) stays behind. -/
def save_uploaded_video (env : Env) (filename : Str) (content : List Nat) (fs : FS) :
    Except Exc Str × FS :=
  match env.saveOutcome with
  | .ok => (.ok (videoPath filename), fsWrite fs (videoPath filename) content)
  | .openFail msg =>
    (.error (.http ⟨500, "Failed to save video: ".toList ++ msg⟩), fs)
  | .writeFail part msg =>
    (.error (.http ⟨500, "Failed to save video: ".toList ++ msg⟩),
      fsWrite fs (videoPath filename) part)

/-- `extract_first_frame` (app.py lines 71-91): run ffmpeg on the saved
video, asking for the first frame at `framePath filename`. If
`subprocess.run` itself cannot launch the binary, a non-`HTTPException`
exception propagates. Otherwise ffmpeg may or may not have written the
output file, and only a non-zero exit status is turned into HTTP 500
carrying the tool's stderr; the existence of the output file is *not*
checked before returning its path. -/
def extract_first_frame (env : Env) (video_path filename : Str) (fs : FS) :
    Except Exc Str × FS :=
  if env.ffmpegLaunch then
    let fs1 := match env.ffmpegWrites with
      | some bytes => fsWrite fs (framePath filename) bytes
      | none => fs
    if env.ffmpegRet ≠ 0 then
      (.error (.http ⟨500, "Failed to extract frame from video: ".toList ++ env.ffmpegErr⟩), fs1)
    else
      (.ok (framePath filename), fs1)
  else
    (.error (.py "ffmpeg executable not found".toList), fs)

/-- `classify_image` (app.py lines 94-119): open the frame file and run
the model; every exception inside the `try` (missing file, decode error,
inference error) becomes HTTP 500 `"Image classification failed: ..."`.
The model call itself is the opaque `env.classifyFn`. -/
def classify_image (env : Env) (image_path : Str) (fs : FS) :
    Except Exc (List LabelScore) :=
  match fsRead fs image_path with
  | none => .error (.http ⟨500,
      "Image classification failed: no such file".toList⟩)
  | some bytes =>
    match env.classifyFn bytes with
    | .error msg => .error (.http ⟨500, "Image classification failed: ".toList ++ msg⟩)
    | .ok labels => .ok labels

/-- `encode_image_to_base64` (app.py lines 121-127): read the frame file
and base64-encode its bytes; a read failure becomes HTTP 500
`"Failed to encode image: ..."`. -/
def encode_image_to_base64 (image_path : Str) (fs : FS) : Except Exc Str :=
  match fsRead fs image_path with
  | none => .error (.http ⟨500, "Failed to encode image: no such file".toList⟩)
  | some bytes => .ok (b64encode bytes)

/-- The JSON body of a successful `POST /process` response. -/
structure ProcResponse where
  labels : List LabelScore
  thumbnail_b64 : Str
deriving DecidableEq

/-- The orchestrator's boundary handlers (app.py lines 177-181):
`except HTTPException: raise` re-raises the domain error unchanged, and
`except Exception:` sanitizes any other exception to a generic HTTP 500. -/
def excToErr : Exc → Err
  | .http e => e
  | .py _ => ⟨500, "Internal processing error".toList⟩

/-- `process_video` (app.py lines 140-184): validate, save, extract,
classify, encode; every failure is mapped by `excToErr`; the `finally`
block always runs `cleanup_temp_files` on the `video_path` / `frame_path`
locals, which are `None` for every stage that did not return a path. -/
def process_video (env : Env) (filename : Str) (content : List Nat) (fs : FS) :
    Except Err ProcResponse × FS :=
  match validate_video_file filename with
  | some e => (.error e, cleanup_temp_files env.stuck [none, none] fs)
  | none =>
    match save_uploaded_video env filename content fs with
    | (.error exc, fs1) => (.error (excToErr exc), cleanup_temp_files env.stuck [none, none] fs1)
    | (.ok video_path, fs1) =>
      match extract_first_frame env video_path filename fs1 with
      | (.error exc, fs2) =>
        (.error (excToErr exc), cleanup_temp_files env.stuck [some video_path, none] fs2)
      | (.ok frame_path, fs2) =>
        match classify_image env frame_path fs2 with
        | .error exc =>
          (.error (excToErr exc),
            cleanup_temp_files env.stuck [some video_path, some frame_path] fs2)
        | .ok labels =>
          match encode_image_to_base64 frame_path fs2 with
          | .error exc =>
            (.error (excToErr exc),
              cleanup_temp_files env.stuck [some video_path, some frame_path] fs2)
          | .ok thumbnail_b64 =>
            (.ok ⟨labels, thumbnail_b64⟩,
              cleanup_temp_files env.stuck [some video_path, some frame_path] fs2)

/-- The process-wide singleton globals `model` and `processor`
(app.py lines 20-21), both `None` until the lifespan startup completes. -/
structure GState (P M : Type) where
  processor : Option P
  model : Option M
deriving DecidableEq

/-- The state at process start: `model = None`, `processor = None`. -/
def initialGState (P M : Type) : GState P M := ⟨none, none⟩

/-- The startup phase of `lifespan` (app.py lines 23-43): load the
processor, then the model; a failure of either load re-raises (the
service never starts serving), a success leaves both globals set. -/
def lifespan_startup (P M : Type) (procRes : Except Str P) (modelRes : Except Str M) :
    Except Str (GState P M) :=
  match procRes with
  | .error e => .error e
  | .ok p =>
    match modelRes with
    | .error e => .error e
    | .ok m => .ok ⟨some p, some m⟩

/-- The JSON body of `GET /health`. -/
structure HealthResponse where
  status : Str
  model_loaded : Bool
deriving DecidableEq

/-- `health_check` (app.py lines 186-189): always
`{"status": "healthy", "model_loaded": model is not None}`; it reads only
the process-wide state, no request data. -/
def health_check (P M : Type) (st : GState P M) : HealthResponse :=
  ⟨"healthy".toList, st.model.isSome⟩

/-- Round-half-to-even to an integer, as Python's built-in `round`. -/
def rhe (q : ℚ) : ℤ :=
  if q - ⌊q⌋ < 1/2 then ⌊q⌋
  else if 1/2 < q - ⌊q⌋ then ⌊q⌋ + 1
  else if ⌊q⌋ % 2 = 0 then ⌊q⌋ else ⌊q⌋ + 1

/-- `round(x, 4)` of Python, on exact rationals. -/
def round4 (q : ℚ) : ℚ := (rhe (q * 10000) : ℚ) / 10000

/-- `torch.nn.functional.softmax` over a list of logits, with the
exponential left abstract: `e` stands for the (strictly positive)
exponential map applied by softmax. -/
def softmax (e : ℚ → ℚ) (logits : List ℚ) : List ℚ :=
  logits.map (fun x => e x / (logits.map e).sum)

/-- The (total, transitive) ranking used to model `torch.topk` with
`sorted=True`: higher score first, ties broken by smaller original class
index (stable order). -/
def rankLE (a b : Nat × ℚ) : Prop := b.2 < a.2 ∨ (a.2 = b.2 ∧ a.1 ≤ b.1)

instance : DecidableRel rankLE := fun a b =>
  inferInstanceAs (Decidable (b.2 < a.2 ∨ (a.2 = b.2 ∧ a.1 ≤ b.1)))

instance : IsTotal (Nat × ℚ) rankLE where
  total a b := by
    rcases lt_trichotomy a.2 b.2 with h | h | h
    · exact .inr (.inl h)
    · rcases Nat.le_total a.1 b.1 with h1 | h1
      · exact .inl (.inr ⟨h, h1⟩)
      · exact .inr (.inr ⟨h.symm, h1⟩)
    · exact .inl (.inl h)

instance : IsTrans (Nat × ℚ) rankLE where
  trans a b c hab hbc := by
    rcases hab with h1 | ⟨e1, l1⟩
    · rcases hbc with h2 | ⟨e2, _⟩
      · exact .inl (h2.trans h1)
      · exact .inl (e2 ▸ h1)
    · rcases hbc with h2 | ⟨e2, l2⟩
      · exact .inl (e1 ▸ h2)
      · exact .inr ⟨e1.trans e2, l1.trans l2⟩

/-- `torch.topk(probabilities, 3)` with `sorted=True`, modelled as a
stable descending sort of the indexed scores followed by `take 3`. -/
def top3 (probs : List ℚ) : List (Nat × ℚ) :=
  (List.insertionSort rankLE probs.enum).take 3

/-- The pure mathematics of `classify_image` (app.py lines 94-119) on a
successfully decoded frame: softmax over the logits, top-3 selection,
`id2label` lookup and rounding of each score to 4 decimal digits. -/
def classify_image_math (id2label : Nat → Str) (e : ℚ → ℚ) (logits : List ℚ) :
    List LabelScore :=
  (top3 (softmax e logits)).map (fun p => (id2label p.1, round4 p.2))

theorem rhe_cases (q : ℚ) : rhe q = ⌊q⌋ ∨ rhe q = ⌊q⌋ + 1 := by
  unfold rhe
  split
  · exact .inl rfl
  split
  · exact .inr rfl
  split
  · exact .inl rfl
  · exact .inr rfl

theorem rhe_mono {a b : ℚ} (h : a ≤ b) : rhe a ≤ rhe b := by
  have hf : ⌊a⌋ ≤ ⌊b⌋ := Int.floor_mono h
  rcases lt_or_eq_of_le hf with hlt | heq
  · rcases rhe_cases a with ha | ha <;> rcases rhe_cases b with hb | hb <;> omega
  · unfold rhe
    rw [← heq]
    split_ifs <;> first | omega | (exfalso; linarith)

theorem rhe_intCast (z : ℤ) : rhe (z : ℚ) = z := by
  unfold rhe
  rw [Int.floor_intCast]
  rw [if_pos]
  rw [sub_self]
  norm_num

theorem round4_mono {a b : ℚ} (h : a ≤ b) : round4 a ≤ round4 b := by
  unfold round4
  have : rhe (a * 10000) ≤ rhe (b * 10000) := rhe_mono (by linarith)
  have h2 : ((rhe (a * 10000) : ℚ)) ≤ ((rhe (b * 10000) : ℚ)) := by exact_mod_cast this
  linarith

theorem round4_nonneg {q : ℚ} (h : 0 ≤ q) : 0 ≤ round4 q := by
  have h0 : round4 0 ≤ round4 q := round4_mono h
  have : round4 0 = 0 := by
    unfold round4
    rw [show (0 : ℚ) * 10000 = ((0 : ℤ) : ℚ) by norm_num, rhe_intCast]
    norm_num
  linarith

theorem round4_le_one {q : ℚ} (h : q ≤ 1) : round4 q ≤ 1 := by
  have h0 : round4 q ≤ round4 1 := round4_mono h
  have : round4 1 = 1 := by
    unfold round4
    rw [show (1 : ℚ) * 10000 = ((10000 : ℤ) : ℚ) by norm_num, rhe_intCast]
    norm_num
  linarith

theorem fsRead_fsRemove (fs : FS) (p q : Str) :
    fsRead (fsRemove fs p) q = if q = p then none else fsRead fs q := by
  induction fs with
  | nil =>
    by_cases hqp : q = p <;> simp [fsRemove, fsRead, hqp]
  | cons e rest ih =>
    by_cases hep : e.1 = p
    · have hstep : fsRemove (e :: rest) p = fsRemove rest p := by
        simp [fsRemove, List.filter, hep]
      rw [hstep, ih]
      by_cases hqp : q = p
      · simp [hqp]
      · have heq : ¬e.1 = q := fun h => hqp (h ▸ hep ▸ rfl)
        simp [hqp, fsRead, heq]
    · have hstep : fsRemove (e :: rest) p = e :: fsRemove rest p := by
        simp [fsRemove, List.filter, hep]
      rw [hstep]
      by_cases heq : e.1 = q
      · have hqp : ¬q = p := fun h => hep (heq.symm ▸ h)
        simp [fsRead, heq, hqp]
      · simp only [fsRead, heq, if_false]
        rw [ih]

theorem fsExists_fsRemove_self (fs : FS) (p : Str) :
    fsExists (fsRemove fs p) p = false := by
  simp [fsExists, fsRead_fsRemove]

theorem fsExists_fsRemove_le (fs : FS) (p q : Str)
    (h : fsExists (fsRemove fs p) q = true) : fsExists fs q = true := by
  rw [fsExists, fsRead_fsRemove] at h
  split at h
  · simp at h
  · exact h

theorem fsExists_cleanup_le (stuck : List Str) (ps : List (Option Str)) (fs : FS) (q : Str)
    (h : fsExists (cleanup_temp_files stuck ps fs) q = true) : fsExists fs q = true := by
  induction ps generalizing fs with
  | nil => exact h
  | cons p rest ih =>
    match p with
    | none => exact ih fs h
    | some r =>
      rw [cleanup_temp_files] at h
      split at h
      · split at h
        · exact ih fs h
        · exact fsExists_fsRemove_le fs r q (ih _ h)
      · exact ih fs h

theorem cleanup_removes (stuck : List Str) (ps : List (Option Str)) (fs : FS) (q : Str)
    (hq : some q ∈ ps) (hs : q ∉ stuck) :
    fsExists (cleanup_temp_files stuck ps fs) q = false := by
  induction ps generalizing fs with
  | nil => simp at hq
  | cons p rest ih =>
    have hkill : ∀ fs1 : FS, fsExists fs1 q = false →
        fsExists (cleanup_temp_files stuck rest fs1) q = false := by
      intro fs1 h1
      cases hfin : fsExists (cleanup_temp_files stuck rest fs1) q
      · rfl
      · rw [fsExists_cleanup_le stuck rest fs1 q hfin] at h1
        exact h1
    rcases List.mem_cons.mp hq with hq1 | hq2
    · subst hq1
      rw [cleanup_temp_files]
      by_cases hex : fsExists fs q = true
      · rw [if_pos hex, if_neg hs]
        by_cases h2 : some q ∈ rest
        · exact ih _ h2
        · exact hkill _ (fsExists_fsRemove_self fs q)
      · rw [if_neg hex]
        by_cases h2 : some q ∈ rest
        · exact ih _ h2
        · exact hkill _ (Bool.not_eq_true _ ▸ hex)
    · match p with
      | none =>
        rw [cleanup_temp_files]
        exact ih fs hq2
      | some r =>
        rw [cleanup_temp_files]
        by_cases hex : fsExists fs r = true
        · rw [if_pos hex]
          by_cases hr : r ∈ stuck
          · rw [if_pos hr]
            exact ih fs hq2
          · rw [if_neg hr]
            exact ih _ hq2
        · rw [if_neg hex]
          exact ih fs hq2

theorem cleanup_of_all_absent (stuck : List Str) (ps : List (Option Str)) (fs : FS)
    (h : ∀ q, some q ∈ ps → q ∉ stuck → fsExists fs q = false) :
    cleanup_temp_files stuck ps fs = fs := by
  induction ps with
  | nil => rfl
  | cons p rest ih =>
    match p with
    | none =>
      rw [cleanup_temp_files]
      exact ih (fun q hq => h q (List.mem_cons_of_mem _ hq))
    | some r =>
      rw [cleanup_temp_files]
      by_cases hr : r ∈ stuck
      · rw [if_pos hr]
        split
        · exact ih (fun q hq => h q (List.mem_cons_of_mem _ hq))
        · exact ih (fun q hq => h q (List.mem_cons_of_mem _ hq))
      · have hre : fsExists fs r = false := h r (List.mem_cons_self _ _) hr
        rw [hre]
        simp only [Bool.false_eq_true, if_false]
        exact ih (fun q hq => h q (List.mem_cons_of_mem _ hq))

theorem cleanup_idem (stuck : List Str) (ps : List (Option Str)) (fs : FS) :
    cleanup_temp_files stuck ps (cleanup_temp_files stuck ps fs) =
      cleanup_temp_files stuck ps fs := by
  apply cleanup_of_all_absent
  intro q hq hs
  exact cleanup_removes stuck ps fs q hq hs

theorem list_sum_pos_of_pos (l : List ℚ) (h : ∀ x ∈ l, 0 < x) (hne : l ≠ []) :
    0 < l.sum := by
  induction l with
  | nil => exact absurd rfl hne
  | cons x rest ih =>
    rw [List.sum_cons]
    rcases List.eq_nil_or_concat rest with h1 | h1
    · subst h1
      simpa using h x (by simp)
    · have hx : 0 < x := h x (by simp)
      have hr : 0 < rest.sum := ih (fun y hy => h y (by simp [hy])) (by
        rintro rfl
        rcases h1 with ⟨_, _, h1⟩
        simp at h1)
      linarith

theorem list_mem_le_sum (l : List ℚ) (x : ℚ) (hx : x ∈ l) (h : ∀ y ∈ l, 0 ≤ y) :
    x ≤ l.sum := by
  induction l with
  | nil => simp at hx
  | cons a rest ih =>
    rw [List.sum_cons]
    rcases List.mem_cons.mp hx with h1 | h1
    · subst h1
      have : 0 ≤ rest.sum := List.sum_nonneg (fun y hy => h y (by simp [hy]))
      linarith
    · have ha : 0 ≤ a := h a (by simp)
      have := ih h1 (fun y hy => h y (by simp [hy]))
      linarith

theorem softmax_mem_bounds (e : ℚ → ℚ) (logits : List ℚ) (he : ∀ x, 0 < e x)
    (p : ℚ) (hp : p ∈ softmax e logits) : 0 < p ∧ p ≤ 1 := by
  rcases List.mem_map.mp hp with ⟨x, hx, rfl⟩
  have hpos : ∀ y ∈ logits.map e, 0 < y := by
    intro y hy
    rcases List.mem_map.mp hy with ⟨z, _, rfl⟩
    exact he z
  have hsum : 0 < (logits.map e).sum := by
    apply list_sum_pos_of_pos _ hpos
    intro hnil
    rw [hnil] at hpos
    have : logits = [] := List.map_eq_nil.mp hnil
    subst this
    simp at hx
  constructor
  · exact div_pos (he x) hsum
  · rw [div_le_one hsum]
    exact list_mem_le_sum _ _ (List.mem_map_of_mem e hx) (fun y hy => le_of_lt (hpos y hy))

theorem top3_pairwise (probs : List ℚ) : List.Pairwise rankLE (top3 probs) :=
  List.Pairwise.sublist (List.take_sublist 3 _)
    (List.sorted_insertionSort rankLE probs.enum)

theorem top3_length (probs : List ℚ) (h : 3 ≤ probs.length) :
    (top3 probs).length = 3 := by
  rw [top3, List.length_take, List.length_insertionSort, List.enum_length]
  omega

theorem top3_mem_enum (probs : List ℚ) (q : Nat × ℚ) (hq : q ∈ top3 probs) :
    q ∈ probs.enum :=
  (List.perm_insertionSort rankLE probs.enum).subset (List.take_subset 3 _ hq)

theorem top3_get (probs : List ℚ) (q : Nat × ℚ) (hq : q ∈ top3 probs) :
    probs.get? q.1 = some q.2 :=
  List.mem_enum_iff_get?.mp (top3_mem_enum probs q hq)

theorem top3_domination (probs : List ℚ) (a : Nat × ℚ) (ha : a ∈ top3 probs)
    (b : Nat × ℚ) (hb : b ∈ (List.insertionSort rankLE probs.enum).drop 3) :
    rankLE a b := by
  have hs : List.Pairwise rankLE (List.insertionSort rankLE probs.enum) :=
    List.sorted_insertionSort rankLE probs.enum
  rw [← List.take_append_drop 3 (List.insertionSort rankLE probs.enum)] at hs
  exact (List.pairwise_append.mp hs).2.2 a ha b hb

/-- An environment in which everything outside the orchestrator behaves
normally, except that the write inside `save_uploaded_video` fails right
after `open` created the file (e.g. the upload stream breaks), leaving a
zero-byte `/tmp` file behind. -/
def envLeak : Env :=
  { saveOutcome := .writeFail [] "disk full".toList, ffmpegLaunch := true,
    ffmpegRet := 0, ffmpegErr := [], ffmpegWrites := none,
    classifyFn := fun _ => .ok [], stuck := [] }

/-- C3: for every filename whose lowercase extension (in the
`os.path.splitext` sense) is in {.mp4, .avi, .mov, .mkv, .wmv, .flv,
.webm} the validator accepts; for every other filename it fails with the
HTTP 400 `InvalidFormat` error whose detail lists every accepted
extension; the validator is a pure function, and a rejected request
leaves the filesystem untouched (no storage write happens). -/
theorem claim_C3_validator :
    (∀ fn : Str, splitext_ext (lowerStr fn) ∈ valid_extensions →
      validate_video_file fn = none) ∧
    (∀ fn : Str, splitext_ext (lowerStr fn) ∉ valid_extensions →
      validate_video_file fn = some ⟨400, invalidFormatMsg⟩) ∧
    (∀ ext ∈ valid_extensions, ∃ s t, invalidFormatMsg = s ++ ext ++ t) ∧
    (∀ env (fn : Str) content fs e, validate_video_file fn = some e →
      (process_video env fn content fs).2 = fs) := by
  refine ⟨?_, ?_, ?_, ?_⟩
  · intro fn h
    simp [validate_video_file, h]
  · intro fn h
    simp [validate_video_file, h]
  · intro ext hext
    fin_cases hext
    · exact ⟨"Invalid video file format. Supported formats: ".toList,
        ", .avi, .mov, .mkv, .wmv, .flv, .webm".toList, by decide⟩
    · exact ⟨"Invalid video file format. Supported formats: .mp4, ".toList,
        ", .mov, .mkv, .wmv, .flv, .webm".toList, by decide⟩
    · exact ⟨"Invalid video file format. Supported formats: .mp4, .avi, ".toList,
        ", .mkv, .wmv, .flv, .webm".toList, by decide⟩
    · exact ⟨"Invalid video file format. Supported formats: .mp4, .avi, .mov, ".toList,
        ", .wmv, .flv, .webm".toList, by decide⟩
    · exact ⟨"Invalid video file format. Supported formats: .mp4, .avi, .mov, .mkv, ".toList,
        ", .flv, .webm".toList, by decide⟩
    · exact ⟨"Invalid video file format. Supported formats: .mp4, .avi, .mov, .mkv, .wmv, ".toList,
        ", .webm".toList, by decide⟩
    · exact ⟨"Invalid video file format. Supported formats: .mp4, .avi, .mov, .mkv, .wmv, .flv, ".toList,
        "".toList, by decide⟩
  · intro env fn content fs e h
    rw [process_video, h]
    rfl

/-- C3 witness: the pipeline evaluated at accepted and rejected concrete
filenames. -/
theorem claim_C3_validator_witness :
    validate_video_file "clip.mp4".toList = none ∧
    validate_video_file "photo.gif".toList = some ⟨400, invalidFormatMsg⟩ ∧
    (∃ s t, invalidFormatMsg = s ++ ".mp4".toList ++ t) ∧
    (process_video envLeak "photo.gif".toList [] []).2 = [] :=
  ⟨claim_C3_validator.1 "clip.mp4".toList (by decide),
   claim_C3_validator.2.1 "photo.gif".toList (by decide),
   claim_C3_validator.2.2.1 ".mp4".toList (by decide),
   claim_C3_validator.2.2.2 envLeak "photo.gif".toList [] [] ⟨400, invalidFormatMsg⟩
     (by decide)⟩

/-- C9: the temp paths are deterministic functions of the user-supplied
filename alone — the saved video goes to `os.path.join("/tmp", filename)`
and the frame to `os.path.join("/tmp", "frame_" + filename + ".jpg")`,
whatever the request's content, filesystem, or environment; for a
relative filename these are `/tmp/<filename>` and
`/tmp/frame_<filename>.jpg`, so identically named uploads use identical
paths, and an absolute filename makes `os.path.join` discard `/tmp`,
storing outside `/tmp` whenever the filename is not itself under it. -/
theorem claim_C9_paths :
    (∀ fn : Str, startsWithL ['/'] fn = false →
      videoPath fn = "/tmp/".toList ++ fn ∧
      framePath fn = "/tmp/frame_".toList ++ fn ++ ".jpg".toList) ∧
    (∀ fn : Str, startsWithL ['/'] fn = true → videoPath fn = fn) ∧
    (∀ fn : Str, startsWithL ['/'] fn = true →
      startsWithL "/tmp/".toList fn = false → fn ≠ "/tmp".toList →
      startsWithL "/tmp/".toList (videoPath fn) = false ∧
        videoPath fn ≠ "/tmp".toList) ∧
    (∀ env (fn : Str) content fs vp fs1,
      save_uploaded_video env fn content fs = (.ok vp, fs1) → vp = videoPath fn) ∧
    (∀ env (vp fn : Str) fs fp fs1,
      extract_first_frame env vp fn fs = (.ok fp, fs1) → fp = framePath fn) := by
  refine ⟨?_, ?_, ?_, ?_, ?_⟩
  · intro fn h
    constructor
    · rw [videoPath, pjoin, h]
      rfl
    · rw [framePath, pjoin]
      rfl
  · intro fn h
    rw [videoPath, pjoin, h]
    rfl
  · intro fn h1 h2 h3
    have hv : videoPath fn = fn := by rw [videoPath, pjoin, h1]; rfl
    rw [hv]
    exact ⟨h2, h3⟩
  · intro env fn content fs vp fs1 h
    rw [save_uploaded_video] at h
    cases ho : env.saveOutcome <;> rw [ho] at h <;> simp at h
    exact h.1.symm
  · intro env vp fn fs fp fs1 h
    rw [extract_first_frame] at h
    cases hl : env.ffmpegLaunch <;> rw [hl] at h <;> simp at h
    by_cases hr : env.ffmpegRet = 0
    · rw [if_pos hr] at h
      simp at h
      exact h.1.symm
    · rw [if_neg hr] at h
      simp at h

/-- C9 witness: the two paths at the concrete filename `clip.mp4`, and
the escape at the absolute filename `/etc/passwd`. -/
theorem claim_C9_paths_witness :
    (videoPath "clip.mp4".toList = "/tmp/".toList ++ "clip.mp4".toList ∧
      framePath "clip.mp4".toList =
        "/tmp/frame_".toList ++ "clip.mp4".toList ++ ".jpg".toList) ∧
    videoPath "/etc/passwd".toList = "/etc/passwd".toList ∧
    (startsWithL "/tmp/".toList (videoPath "/etc/passwd".toList) = false ∧
      videoPath "/etc/passwd".toList ≠ "/tmp".toList) :=
  ⟨claim_C9_paths.1 "clip.mp4".toList (by decide),
   claim_C9_paths.2.1 "/etc/passwd".toList (by decide),
   claim_C9_paths.2.2.1 "/etc/passwd".toList (by decide) (by decide) (by decide)⟩

/-- C10: on the validation-failure path of `process_video` the `finally`
cleanup is invoked with both paths `None`; `os.path.exists(None)` raises
`TypeError`, the bare `except` inside `cleanup_temp_files` swallows it,
no file is removed, cleanup returns normally (for any filesystem and any
removal-error oracle), and the already-determined HTTP 400 response is
returned with the filesystem unchanged. -/
theorem claim_C10_none_cleanup :
    (∀ stuck fs, cleanup_temp_files stuck [none, none] fs = fs) ∧
    (∀ env (fn : Str) content fs e, validate_video_file fn = some e →
      process_video env fn content fs = (.error e, fs) ∧ e.status = 400) := by
  constructor
  · intro stuck fs
    rfl
  · intro env fn content fs e h
    constructor
    · rw [process_video, h]
      rfl
    · rw [validate_video_file] at h
      by_cases hc : splitext_ext (lowerStr fn) ∈ valid_extensions
      · rw [if_pos hc] at h
        cases h
      · rw [if_neg hc] at h
        cases h
        rfl

/-- C10 witness: the rejected upload `photo.gif` against a nonempty
filesystem and a removal-error oracle. -/
theorem claim_C10_none_cleanup_witness :
    cleanup_temp_files ["/tmp/x".toList] [none, none] [("/tmp/x".toList, [7])] =
      [("/tmp/x".toList, [7])] ∧
    (process_video envLeak "photo.gif".toList [] [("/tmp/x".toList, [7])] =
      (.error ⟨400, invalidFormatMsg⟩, [("/tmp/x".toList, [7])]) ∧
      (⟨400, invalidFormatMsg⟩ : Err).status = 400) :=
  ⟨claim_C10_none_cleanup.1 ["/tmp/x".toList] [("/tmp/x".toList, [7])],
   claim_C10_none_cleanup.2 envLeak "photo.gif".toList [] [("/tmp/x".toList, [7])]
     ⟨400, invalidFormatMsg⟩ (by decide)⟩

/-- C8: `GET /health` always answers `{"status": "healthy",
"model_loaded": b}` where `b` reports exactly whether the global `model`
is set: `false` in the initial state (before `lifespan` completes), and
`true` in any state produced by a successful startup; the endpoint reads
only the process-wide state, no request-specific data. -/
theorem claim_C8_health :
    (∀ (P M : Type) (st : GState P M),
      (health_check P M st).status = "healthy".toList ∧
      (health_check P M st).model_loaded = st.model.isSome) ∧
    (∀ (P M : Type), (health_check P M (initialGState P M)).model_loaded = false) ∧
    (∀ (P M : Type) (pr : Except Str P) (mr : Except Str M) (st : GState P M),
      lifespan_startup P M pr mr = .ok st →
      (health_check P M st).model_loaded = true) := by
  refine ⟨fun P M st => ⟨rfl, rfl⟩, fun P M => rfl, ?_⟩
  intro P M pr mr st h
  cases pr with
  | error ep =>
    rw [lifespan_startup] at h
    cases h
  | ok p =>
    cases mr with
    | error em =>
      rw [lifespan_startup] at h
      cases h
    | ok m =>
      rw [lifespan_startup] at h
      cases h
      rfl

/-- C8 witness: the health response before and after a successful
startup, with trivial processor/model handles. -/
theorem claim_C8_health_witness :
    ((health_check Unit Unit ⟨some (), some ()⟩).status = "healthy".toList ∧
      (health_check Unit Unit ⟨some (), some ()⟩).model_loaded =
        (GState.mk (some ()) (some ())).model.isSome) ∧
    (health_check Unit Unit (initialGState Unit Unit)).model_loaded = false ∧
    (health_check Unit Unit ⟨some (), some ()⟩).model_loaded = true :=
  ⟨claim_C8_health.1 Unit Unit ⟨some (), some ()⟩,
   claim_C8_health.2.1 Unit Unit,
   claim_C8_health.2.2 Unit Unit (.ok ()) (.ok ()) ⟨some (), some ()⟩ rfl⟩

/-- C6: cleanup is idempotent and total — it removes every listed
artifact that exists (and is removable), running it again on the same
artifact list leaves the filesystem exactly as after the first run, and
it never raises: every removal error is swallowed, so the response
component of `process_video` does not depend on the removal-error oracle
at all. -/
theorem claim_C6_cleanup :
    (∀ stuck ps fs (q : Str), some q ∈ ps → q ∉ stuck →
      fsExists (cleanup_temp_files stuck ps fs) q = false) ∧
    (∀ stuck ps fs, cleanup_temp_files stuck ps (cleanup_temp_files stuck ps fs) =
      cleanup_temp_files stuck ps fs) ∧
    (∀ (env : Env) (s₁ s₂ : List Str) (fn : Str) content fs,
      (process_video { env with stuck := s₁ } fn content fs).1 =
      (process_video { env with stuck := s₂ } fn content fs).1) := by
  refine ⟨fun stuck ps fs q hq hs => cleanup_removes stuck ps fs q hq hs,
    fun stuck ps fs => cleanup_idem stuck ps fs, ?_⟩
  intro env s₁ s₂ fn content fs
  rcases env with ⟨so, fl, fr, fe, fw, cf, st⟩
  show (process_video ⟨so, fl, fr, fe, fw, cf, s₁⟩ fn content fs).1 =
       (process_video ⟨so, fl, fr, fe, fw, cf, s₂⟩ fn content fs).1
  simp only [process_video]
  cases hv : validate_video_file fn with
  | some e => simp only [hv]
  | none =>
    simp only [hv]
    have hsave : save_uploaded_video ⟨so, fl, fr, fe, fw, cf, s₁⟩ fn content fs =
        save_uploaded_video ⟨so, fl, fr, fe, fw, cf, s₂⟩ fn content fs := rfl
    rw [hsave]
    cases hs : save_uploaded_video ⟨so, fl, fr, fe, fw, cf, s₂⟩ fn content fs with
    | mk res fs1 =>
      cases res with
      | error exc => simp only [hs]
      | ok vp =>
        simp only [hs]
        have hext : extract_first_frame ⟨so, fl, fr, fe, fw, cf, s₁⟩ vp fn fs1 =
            extract_first_frame ⟨so, fl, fr, fe, fw, cf, s₂⟩ vp fn fs1 := rfl
        rw [hext]
        cases he : extract_first_frame ⟨so, fl, fr, fe, fw, cf, s₂⟩ vp fn fs1 with
        | mk eres fs2 =>
          cases eres with
          | error exc => simp only [he]
          | ok fp =>
            simp only [he]
            have hcls : classify_image ⟨so, fl, fr, fe, fw, cf, s₁⟩ fp fs2 =
                classify_image ⟨so, fl, fr, fe, fw, cf, s₂⟩ fp fs2 := rfl
            rw [hcls]
            cases hc : classify_image ⟨so, fl, fr, fe, fw, cf, s₂⟩ fp fs2 with
            | error exc => simp only [hc]
            | ok labels =>
              simp only [hc]
              cases hen : encode_image_to_base64 fp fs2 with
              | error exc => simp only [hen]
              | ok tb => simp only [hen]

/-- C6 witness: one existing artifact removed, idempotence on that
state, and the response unchanged between a removal-error oracle and a
clean one. -/
theorem claim_C6_cleanup_witness :
    fsExists (cleanup_temp_files [] [some "/tmp/a".toList]
      [("/tmp/a".toList, [1])]) "/tmp/a".toList = false ∧
    cleanup_temp_files [] [some "/tmp/a".toList]
        (cleanup_temp_files [] [some "/tmp/a".toList] [("/tmp/a".toList, [1])]) =
      cleanup_temp_files [] [some "/tmp/a".toList] [("/tmp/a".toList, [1])] ∧
    (process_video { envLeak with stuck := ["/tmp/x".toList] }
        "clip.mp4".toList [] []).1 =
      (process_video { envLeak with stuck := [] } "clip.mp4".toList [] []).1 :=
  ⟨claim_C6_cleanup.1 [] [some "/tmp/a".toList] [("/tmp/a".toList, [1])]
      "/tmp/a".toList (by decide) (by decide),
   claim_C6_cleanup.2.1 [] [some "/tmp/a".toList] [("/tmp/a".toList, [1])],
   claim_C6_cleanup.2.2 envLeak ["/tmp/x".toList] [] "clip.mp4".toList [] []⟩

/-- C7: in every successful response the thumbnail is the base64
encoding of the extracted frame file's bytes; decoding it yields exactly
those bytes, hence any function of the bytes (such as image dimensions)
agrees on the decoded thumbnail and the frame; and if the frame file
cannot be read, response assembly fails with the HTTP 500 encoding
error. -/
theorem claim_C7_thumbnail :
    (∀ (env : Env) (fn : Str) content fs r fsOut,
      process_video env fn content fs = (.ok r, fsOut) →
      ∃ vp fs1 fp fs2 bytes,
        save_uploaded_video env fn content fs = (.ok vp, fs1) ∧
        extract_first_frame env vp fn fs1 = (.ok fp, fs2) ∧
        fsRead fs2 fp = some bytes ∧
        r.thumbnail_b64 = b64encode bytes) ∧
    (∀ fs (fp : Str) bytes, fsRead fs fp = some bytes → (∀ b ∈ bytes, b < 256) →
      encode_image_to_base64 fp fs = .ok (b64encode bytes) ∧
      b64decode (b64encode bytes) = bytes ∧
      ∀ dim : List Nat → Nat × Nat, dim (b64decode (b64encode bytes)) = dim bytes) ∧
    (∀ fs (fp : Str), fsRead fs fp = none →
      encode_image_to_base64 fp fs =
        .error (.http ⟨500, "Failed to encode image: no such file".toList⟩)) := by
  refine ⟨?_, ?_, ?_⟩
  · intro env fn content fs r fsOut h
    rw [process_video] at h
    cases hv : validate_video_file fn <;> simp only [hv] at h
    case some e => cases h
    cases hs : save_uploaded_video env fn content fs with
    | mk res fs1 =>
      simp only [hs] at h
      cases res with
      | error exc => cases h
      | ok vp =>
        cases he : extract_first_frame env vp fn fs1 with
        | mk eres fs2 =>
          simp only [he] at h
          cases eres with
          | error exc => cases h
          | ok fp =>
            cases hc : classify_image env fp fs2 with
            | error exc => simp only [hc] at h; cases h
            | ok labels =>
              simp only [hc] at h
              cases hen : encode_image_to_base64 fp fs2 with
              | error exc => simp only [hen] at h; cases h
              | ok tb =>
                simp only [hen] at h
                cases hrd : fsRead fs2 fp with
                | none => rw [encode_image_to_base64, hrd] at hen; cases hen
                | some bytes =>
                  refine ⟨vp, fs1, fp, fs2, bytes, rfl, he, hrd, ?_⟩
                  rw [encode_image_to_base64, hrd] at hen
                  cases h
                  cases hen
                  rfl
  · intro fs fp bytes h hb
    refine ⟨?_, b64_roundtrip bytes hb, ?_⟩
    · rw [encode_image_to_base64, h]
    · intro dim
      rw [b64_roundtrip bytes hb]
  · intro fs fp h
    rw [encode_image_to_base64, h]

/-- C7 witness: a three-byte frame file round-trips through the
thumbnail encoding, and the missing-file case fails with the encoding
error. -/
theorem claim_C7_thumbnail_witness :
    (encode_image_to_base64 "/tmp/f.jpg".toList
        [("/tmp/f.jpg".toList, [1, 255, 0])] = .ok (b64encode [1, 255, 0]) ∧
      b64decode (b64encode [1, 255, 0]) = [1, 255, 0] ∧
      ∀ dim : List Nat → Nat × Nat,
        dim (b64decode (b64encode [1, 255, 0])) = dim [1, 255, 0]) ∧
    encode_image_to_base64 "/tmp/f.jpg".toList [] =
      .error (.http ⟨500, "Failed to encode image: no such file".toList⟩) :=
  ⟨claim_C7_thumbnail.2.1 [("/tmp/f.jpg".toList, [1, 255, 0])] "/tmp/f.jpg".toList
      [1, 255, 0] (by decide) (by decide),
   claim_C7_thumbnail.2.2 [] "/tmp/f.jpg".toList rfl⟩

/-- An environment in which ffmpeg launches, exits with status 0, but
writes no output frame file (and everything else behaves normally). -/
def envNoFrame : Env :=
  { saveOutcome := .ok, ffmpegLaunch := true, ffmpegRet := 0, ffmpegErr := [],
    ffmpegWrites := none, classifyFn := fun _ => .ok [], stuck := [] }

/-- An environment in which ffmpeg launches but fails with exit status 1
and a diagnostic on stderr, having written no output. -/
def envFfmpegFail : Env :=
  { saveOutcome := .ok, ffmpegLaunch := true, ffmpegRet := 1,
    ffmpegErr := "moov atom not found".toList, ffmpegWrites := none,
    classifyFn := fun _ => .ok [], stuck := [] }

/-- C2 counterexample: with exit status 0 and no output file written,
`extract_first_frame` returns the frame path successfully — it does not
fail on absence of the output file, contrary to the claim's "or when the
output frame file is absent". -/
theorem claim_C2_counterexample :
    (extract_first_frame envNoFrame "/tmp/clip.mp4".toList "clip.mp4".toList []).1 =
      .ok (framePath "clip.mp4".toList) ∧
    fsExists (extract_first_frame envNoFrame "/tmp/clip.mp4".toList
      "clip.mp4".toList []).2 (framePath "clip.mp4".toList) = false := by
  constructor
  · rfl
  · rfl

/-- C2 amended: provided `subprocess.run` can launch the binary,
`extract_first_frame` fails — with HTTP 500 carrying the tool's stderr —
exactly when the external process exits with non-zero status; the
output file's existence is never checked, and on exit status 0 the frame
path is returned regardless of whether the file exists. -/
theorem claim_C2_extract_amended :
    ∀ (env : Env) (vp fn : Str) fs, env.ffmpegLaunch = true →
      ((env.ffmpegRet ≠ 0 →
        (extract_first_frame env vp fn fs).1 = .error (.http ⟨500,
          "Failed to extract frame from video: ".toList ++ env.ffmpegErr⟩)) ∧
       (env.ffmpegRet = 0 →
        (extract_first_frame env vp fn fs).1 = .ok (framePath fn))) := by
  intro env vp fn fs hl
  constructor
  · intro hr
    rw [extract_first_frame, hl]
    simp only [if_true]
    rw [if_pos hr]
  · intro hr
    rw [extract_first_frame, hl]
    simp only [if_true]
    rw [if_neg (by omega)]

/-- C2 witness: the amended behaviour at exit status 1 with stderr
`"moov atom not found"`, and at exit status 0. -/
theorem claim_C2_extract_amended_witness :
    ((envFfmpegFail.ffmpegRet ≠ 0 →
      (extract_first_frame envFfmpegFail "/tmp/clip.mp4".toList "clip.mp4".toList []).1 =
        .error (.http ⟨500, "Failed to extract frame from video: ".toList ++
          envFfmpegFail.ffmpegErr⟩)) ∧
     (envFfmpegFail.ffmpegRet = 0 →
      (extract_first_frame envFfmpegFail "/tmp/clip.mp4".toList "clip.mp4".toList []).1 =
        .ok (framePath "clip.mp4".toList))) ∧
    ((envNoFrame.ffmpegRet ≠ 0 →
      (extract_first_frame envNoFrame "/tmp/clip.mp4".toList "clip.mp4".toList []).1 =
        .error (.http ⟨500, "Failed to extract frame from video: ".toList ++
          envNoFrame.ffmpegErr⟩)) ∧
     (envNoFrame.ffmpegRet = 0 →
      (extract_first_frame envNoFrame "/tmp/clip.mp4".toList "clip.mp4".toList []).1 =
        .ok (framePath "clip.mp4".toList))) :=
  ⟨claim_C2_extract_amended envFfmpegFail "/tmp/clip.mp4".toList "clip.mp4".toList [] rfl,
   claim_C2_extract_amended envNoFrame "/tmp/clip.mp4".toList "clip.mp4".toList [] rfl⟩

/-- C1 counterexample: a write failure inside `save_uploaded_video`
(after `open` created `/tmp/clip.mp4`) leaves `video_path = None` in the
orchestrator, so the `finally` cleanup removes nothing and the created
temp file survives the request. -/
theorem claim_C1_counterexample :
    (process_video envLeak "clip.mp4".toList [1, 2, 3] []).1 =
      .error ⟨500, "Failed to save video: disk full".toList⟩ ∧
    fsExists (process_video envLeak "clip.mp4".toList [1, 2, 3] []).2
      (videoPath "clip.mp4".toList) = true := by
  constructor
  · rfl
  · rfl

/-- C1 amended: cleanup runs unconditionally at the end of every
request, and every temp artifact whose path the orchestrator recorded (a
stage returned it) is removed: once the save stage returns, the video
file is gone after the request, and once ffmpeg runs and exits 0, the
frame file is gone too. (An artifact created by a stage that failed
before returning its path — a partial save write, or partial ffmpeg
output on a non-zero exit — can survive, as the counterexample shows.) -/
theorem claim_C1_cleanup_amended :
    ∀ (env : Env) (fn : Str) content fs, env.stuck = [] →
      validate_video_file fn = none → env.saveOutcome = .ok →
      fsExists (process_video env fn content fs).2 (videoPath fn) = false ∧
      (env.ffmpegLaunch = true → env.ffmpegRet = 0 →
        fsExists (process_video env fn content fs).2 (framePath fn) = false) := by
  intro env fn content fs hstuck hv hsave
  have main : ∀ res fsOut, process_video env fn content fs = (res, fsOut) →
      fsExists fsOut (videoPath fn) = false ∧
      (env.ffmpegLaunch = true → env.ffmpegRet = 0 →
        fsExists fsOut (framePath fn) = false) := by
    intro res fsOut h
    rw [process_video] at h
    simp only [hv] at h
    have hs : save_uploaded_video env fn content fs =
        (.ok (videoPath fn), fsWrite fs (videoPath fn) content) := by
      rw [save_uploaded_video, hsave]
    simp only [hs] at h
    cases he : extract_first_frame env (videoPath fn) fn
        (fsWrite fs (videoPath fn) content) with
    | mk eres fs2 =>
      cases eres with
      | error exc =>
        simp only [he] at h
        injection h with h1 h2
        subst h2
        constructor
        · exact cleanup_removes env.stuck [some (videoPath fn), none] fs2
            (videoPath fn) (by simp) (by simp [hstuck])
        · intro hl hr
          rw [extract_first_frame, hl] at he
          simp only [if_true] at he
          rw [if_neg (by omega)] at he
          simp at he
      | ok fp =>
        simp only [he] at h
        have hfp : env.ffmpegLaunch = true → env.ffmpegRet = 0 →
            fp = framePath fn := by
          intro hl hr
          rw [extract_first_frame, hl] at he
          simp only [if_true] at he
          rw [if_neg (by omega)] at he
          simp only [Prod.mk.injEq, Except.ok.injEq] at he
          exact he.1.symm
        cases hc : classify_image env fp fs2 with
        | error exc =>
          simp only [hc] at h
          injection h with h1 h2
          subst h2
          refine ⟨cleanup_removes env.stuck [some (videoPath fn), some fp] fs2
            (videoPath fn) (by simp) (by simp [hstuck]), fun hl hr => ?_⟩
          have h3 := hfp hl hr
          subst h3
          exact cleanup_removes env.stuck [some (videoPath fn), some (framePath fn)]
            fs2 (framePath fn) (by simp) (by simp [hstuck])
        | ok labels =>
          simp only [hc] at h
          cases hen : encode_image_to_base64 fp fs2 with
          | error exc =>
            simp only [hen] at h
            injection h with h1 h2
            subst h2
            refine ⟨cleanup_removes env.stuck [some (videoPath fn), some fp] fs2
              (videoPath fn) (by simp) (by simp [hstuck]), fun hl hr => ?_⟩
            have h3 := hfp hl hr
            subst h3
            exact cleanup_removes env.stuck [some (videoPath fn), some (framePath fn)]
              fs2 (framePath fn) (by simp) (by simp [hstuck])
          | ok tb =>
            simp only [hen] at h
            injection h with h1 h2
            subst h2
            refine ⟨cleanup_removes env.stuck [some (videoPath fn), some fp] fs2
              (videoPath fn) (by simp) (by simp [hstuck]), fun hl hr => ?_⟩
            have h3 := hfp hl hr
            subst h3
            exact cleanup_removes env.stuck [some (videoPath fn), some (framePath fn)]
              fs2 (framePath fn) (by simp) (by simp [hstuck])
  exact main (process_video env fn content fs).1 (process_video env fn content fs).2 rfl

/-- C1 witness: the amended guarantee on a fully successful request over
an empty filesystem — neither temp path survives. -/
theorem claim_C1_cleanup_amended_witness :
    fsExists (process_video envNoFrame "clip.mp4".toList [1, 2] []).2
      (videoPath "clip.mp4".toList) = false ∧
    (envNoFrame.ffmpegLaunch = true → envNoFrame.ffmpegRet = 0 →
      fsExists (process_video envNoFrame "clip.mp4".toList [1, 2] []).2
        (framePath "clip.mp4".toList) = false) :=
  claim_C1_cleanup_amended envNoFrame "clip.mp4".toList [1, 2] [] rfl (by decide) rfl

theorem save_error_status (env : Env) (fn : Str) (content : List Nat) (fs : FS)
    (exc : Exc) (fs1 : FS)
    (h : save_uploaded_video env fn content fs = (.error exc, fs1)) :
    (excToErr exc).status = 500 := by
  cases ho : env.saveOutcome <;> rw [save_uploaded_video, ho] at h <;>
    simp only [Prod.mk.injEq] at h
  · cases h.1
  · rw [← Except.error.inj h.1]
    rfl
  · rw [← Except.error.inj h.1]
    rfl

theorem extract_error_status (env : Env) (vp fn : Str) (fs : FS) (exc : Exc) (fs2 : FS)
    (h : extract_first_frame env vp fn fs = (.error exc, fs2)) :
    (excToErr exc).status = 500 := by
  rw [extract_first_frame] at h
  cases hl : env.ffmpegLaunch <;> rw [hl] at h
  · simp only [Bool.false_eq_true, if_false, Prod.mk.injEq] at h
    rw [← Except.error.inj h.1]
    rfl
  · simp only [if_true] at h
    by_cases hr : env.ffmpegRet ≠ 0
    · rw [if_pos hr] at h
      simp only [Prod.mk.injEq] at h
      rw [← Except.error.inj h.1]
      rfl
    · rw [if_neg hr] at h
      simp only [Prod.mk.injEq] at h
      cases h.1

theorem classify_error_status (env : Env) (fp : Str) (fs : FS) (exc : Exc)
    (h : classify_image env fp fs = .error exc) :
    (excToErr exc).status = 500 := by
  rw [classify_image] at h
  cases hrd : fsRead fs fp <;> simp only [hrd] at h
  · rw [← Except.error.inj h]
    rfl
  · rename_i bytes
    cases hcf : env.classifyFn bytes <;> simp only [hcf] at h
    · rw [← Except.error.inj h]
      rfl
    · cases h

theorem encode_error_status (fp : Str) (fs : FS) (exc : Exc)
    (h : encode_image_to_base64 fp fs = .error exc) :
    (excToErr exc).status = 500 := by
  rw [encode_image_to_base64] at h
  cases hrd : fsRead fs fp <;> simp only [hrd] at h
  · rw [← Except.error.inj h]
    rfl
  · cases h

/-- C5: `POST /process` answers HTTP 400 exactly for the format
validation failure (whose detail lists the accepted formats, and which
short-circuits with the filesystem untouched, before any resource is
created); every other failure — storage, extraction (including an
unlaunchable ffmpeg, sanitized by the orchestrator's `except Exception`
boundary to a generic detail), classification, encoding — surfaces as
HTTP 500 with a JSON detail string. -/
theorem claim_C5_status_mapping :
    ∀ (env : Env) (fn : Str) content fs,
      (∀ e, validate_video_file fn = some e →
        (process_video env fn content fs).1 = .error e ∧ e.status = 400 ∧
        e.detail = invalidFormatMsg ∧ (process_video env fn content fs).2 = fs) ∧
      (validate_video_file fn = none →
        ∀ e, (process_video env fn content fs).1 = .error e → e.status = 500) := by
  intro env fn content fs
  constructor
  · intro e h
    have he : e = ⟨400, invalidFormatMsg⟩ := by
      rw [validate_video_file] at h
      by_cases hc : splitext_ext (lowerStr fn) ∈ valid_extensions
      · rw [if_pos hc] at h
        cases h
      · rw [if_neg hc] at h
        exact (Option.some.inj h).symm
    refine ⟨?_, ?_, ?_, ?_⟩
    · rw [process_video, h]
    · rw [he]
    · rw [he]
    · rw [process_video, h]
      rfl
  · intro hv e h
    have main : ∀ res fsOut, process_video env fn content fs = (res, fsOut) →
        res = .error e → e.status = 500 := by
      intro res fsOut hp hres
      rw [process_video] at hp
      simp only [hv] at hp
      cases hs : save_uploaded_video env fn content fs with
      | mk sres fs1 =>
        cases sres with
        | error exc =>
          simp only [hs] at hp
          injection hp with h1 h2
          rw [← h1] at hres
          rw [← Except.error.inj hres]
          exact save_error_status env fn content fs exc fs1 hs
        | ok vp =>
          simp only [hs] at hp
          cases he2 : extract_first_frame env vp fn fs1 with
          | mk eres fs2 =>
            cases eres with
            | error exc =>
              simp only [he2] at hp
              injection hp with h1 h2
              rw [← h1] at hres
              rw [← Except.error.inj hres]
              exact extract_error_status env vp fn fs1 exc fs2 he2
            | ok fp =>
              simp only [he2] at hp
              cases hc : classify_image env fp fs2 with
              | error exc =>
                simp only [hc] at hp
                injection hp with h1 h2
                rw [← h1] at hres
                rw [← Except.error.inj hres]
                exact classify_error_status env fp fs2 exc hc
              | ok labels =>
                simp only [hc] at hp
                cases hen : encode_image_to_base64 fp fs2 with
                | error exc =>
                  simp only [hen] at hp
                  injection hp with h1 h2
                  rw [← h1] at hres
                  rw [← Except.error.inj hres]
                  exact encode_error_status fp fs2 exc hen
                | ok tb =>
                  simp only [hen] at hp
                  injection hp with h1 h2
                  rw [← h1] at hres
                  cases hres
    exact main (process_video env fn content fs).1 (process_video env fn content fs).2
      rfl h

/-- C5 witness: the 400 on `photo.gif` and the 500 on a failing ffmpeg
run for `clip.mp4`. -/
theorem claim_C5_status_mapping_witness :
    ((process_video envFfmpegFail "photo.gif".toList [] []).1 =
      .error ⟨400, invalidFormatMsg⟩ ∧
      (⟨400, invalidFormatMsg⟩ : Err).status = 400 ∧
      (⟨400, invalidFormatMsg⟩ : Err).detail = invalidFormatMsg ∧
      (process_video envFfmpegFail "photo.gif".toList [] []).2 = []) ∧
    (⟨500, "Failed to extract frame from video: moov atom not found".toList⟩ :
      Err).status = 500 :=
  ⟨(claim_C5_status_mapping envFfmpegFail "photo.gif".toList [] []).1
      ⟨400, invalidFormatMsg⟩ (by decide),
   (claim_C5_status_mapping envFfmpegFail "clip.mp4".toList [] []).2 (by decide)
      ⟨500, "Failed to extract frame from video: moov atom not found".toList⟩
      rfl⟩

/-- C4: on a successfully decoded frame, classification returns exactly
3 (label, score) pairs drawn from the softmax distribution over the
logits: each reported (index, score) pair is the distribution's entry at
that class index, the selected 3 dominate every unselected class, the
selection is ordered by descending probability with ties broken by
original class index (stable order), and each reported score is the
4-decimal-digit rounding of its probability, monotonically
non-increasing and within [0, 1]. -/
theorem claim_C4_classification :
    ∀ (id2label : Nat → Str) (e : ℚ → ℚ) (logits : List ℚ),
      (∀ x, 0 < e x) → 3 ≤ logits.length →
      ((classify_image_math id2label e logits).length = 3 ∧
       List.Pairwise rankLE (top3 (softmax e logits)) ∧
       List.Pairwise (fun a b : LabelScore => b.2 ≤ a.2)
         (classify_image_math id2label e logits) ∧
       (∀ p ∈ classify_image_math id2label e logits, 0 ≤ p.2 ∧ p.2 ≤ 1) ∧
       (∀ q ∈ top3 (softmax e logits), (softmax e logits).get? q.1 = some q.2) ∧
       (∀ p ∈ classify_image_math id2label e logits,
         ∃ q ∈ top3 (softmax e logits), p = (id2label q.1, round4 q.2)) ∧
       (∀ a ∈ top3 (softmax e logits),
         ∀ b ∈ (List.insertionSort rankLE (softmax e logits).enum).drop 3,
           rankLE a b)) := by
  intro id2label e logits he hlen
  have hsl : (softmax e logits).length = logits.length := List.length_map _ _
  refine ⟨?_, top3_pairwise _, ?_, ?_, fun q hq => top3_get _ q hq, ?_, ?_⟩
  · rw [classify_image_math, List.length_map, top3_length _ (by omega)]
  · rw [classify_image_math, List.pairwise_map]
    refine (top3_pairwise (softmax e logits)).imp ?_
    intro a b hab
    rcases hab with h1 | ⟨h2, _⟩
    · exact round4_mono (le_of_lt h1)
    · exact le_of_eq (congrArg round4 h2.symm)
  · intro p hp
    rcases List.mem_map.mp hp with ⟨q, hq, rfl⟩
    have hmem : q.2 ∈ softmax e logits :=
      List.get?_mem (top3_get (softmax e logits) q hq)
    have hb := softmax_mem_bounds e logits he q.2 hmem
    exact ⟨round4_nonneg (le_of_lt hb.1), round4_le_one hb.2⟩
  · intro p hp
    rcases List.mem_map.mp hp with ⟨q, hq, rfl⟩
    exact ⟨q, hq, rfl⟩
  · intro a ha b hb
    exact top3_domination _ a ha b hb

/-- C4 witness: the classifier math at four equal logits with the
trivial positive exponential; all seven conclusions instantiated. -/
theorem claim_C4_classification_witness :
    ((classify_image_math (fun _ => []) (fun _ => 1) [0, 0, 0, 0]).length = 3 ∧
     List.Pairwise rankLE (top3 (softmax (fun _ => 1) [0, 0, 0, 0])) ∧
     List.Pairwise (fun a b : LabelScore => b.2 ≤ a.2)
       (classify_image_math (fun _ => []) (fun _ => 1) [0, 0, 0, 0]) ∧
     (∀ p ∈ classify_image_math (fun _ => []) (fun _ => 1) [0, 0, 0, 0],
       0 ≤ p.2 ∧ p.2 ≤ 1) ∧
     (∀ q ∈ top3 (softmax (fun _ => 1) [0, 0, 0, 0]),
       (softmax (fun _ => 1) [0, 0, 0, 0]).get? q.1 = some q.2) ∧
     (∀ p ∈ classify_image_math (fun _ => []) (fun _ => 1) [0, 0, 0, 0],
       ∃ q ∈ top3 (softmax (fun _ => 1) [0, 0, 0, 0]),
         p = ((fun _ => ([] : Str)) q.1, round4 q.2)) ∧
     (∀ a ∈ top3 (softmax (fun _ => 1) [0, 0, 0, 0]),
       ∀ b ∈ (List.insertionSort rankLE
           (softmax (fun _ => 1) [0, 0, 0, 0]).enum).drop 3,
         rankLE a b)) :=
  claim_C4_classification (fun _ => []) (fun _ => 1) [0, 0, 0, 0]
    (fun _ => one_pos) (by decide)
